import Mathlib

/-!
Verification development for the municipality clustering engine
(`src/analysis/clustering.py`).

The module is embedded shallowly:

* a dataframe is a `List` of typed records (`Row`, the loaded schema);
* floating-point values are modelled as `Option ℚ` where `none` stands
  for a non-finite value (NaN or ±Inf): the module's own logic only
  branches on finiteness (`np.isfinite`), never on the distinction
  between NaN and Inf, and every non-finite value produced before the
  scaler is either replaced or collapsed to NaN by the median step;
* the two transcendental functions involved (natural log inside
  `prepare_features`, the square root inside the standard deviation)
  are abstracted as parameters `lg`/`sqrtQ : ℚ → ℚ` giving the value on
  the domain where the real function is finite; `np.log` is non-finite
  exactly on non-positive inputs, which is modelled explicitly;
* the nondeterministic group enumeration order of polars `group_by`
  (and of the subsequent non-order-maintaining `sort`) is an explicit
  parameter `gorder`, constrained to be a permutation of the distinct
  raw ids; a stable sort over an arbitrary enumeration order
  reaches exactly the outcomes the library may produce;
* the external KMeans model is a parameter `km` (its code is not part
  of this repository); the wrapper `run_clustering` is embedded as
  written in the source;
* file-system effects of the exporter are embedded as an explicit
  operation trace.
-/

namespace Clustering

/-- One row of the dataframe produced by `load_municipality_data`:
the thirteen columns selected from `main_marts.dim_municipio`, after the
WHERE clause removed rows with a NULL in any of the four required
indicators, so the indicator fields are plain rationals. -/
structure Row where
  id_municipio_ibge : String
  nome_municipio : String
  sigla_uf : String
  regiao : String
  populacao : Int
  porte_municipio : String
  idhm_2010 : ℚ
  idhm_educacao : ℚ
  idhm_longevidade : ℚ
  idhm_renda : ℚ
  ivs_2010 : ℚ
  gini_2010 : ℚ
  renda_per_capita_2010 : ℚ
deriving Repr, DecidableEq

/-- The fixed label table `CLUSTER_LABELS` of the source module:
a dictionary from ordered cluster id to Portuguese label, with exactly
five entries. -/
def CLUSTER_LABELS : List (Nat × String) :=
  [(0, "Polos de Desenvolvimento"),
   (1, "Desenvolvimento Avancado"),
   (2, "Em Desenvolvimento"),
   (3, "Vulneraveis"),
   (4, "Criticos")]

/-- Dictionary lookup, the semantics of a Python dict lookup and of
polars `replace_strict` applied to a mapping given as key/value pairs
with distinct keys. -/
def dict_get {β : Type} : List (Nat × β) → Nat → Option β
  | [], _ => none
  | (k, v) :: rest, g => if k = g then some v else dict_get rest g

/-- Errors a pipeline stage can surface.  The spec names four typed
error classes; the source module defines none of them, so the only
constructor the embedded stages ever produce is `libraryFailure`, the
generic `ValueError` of an underlying library call. -/
inductive RunError where
  | dataUnavailable : RunError
  | insufficientData : RunError
  | degenerateCluster : RunError
  | labelConfiguration : RunError
  | libraryFailure : String → RunError
deriving Repr, DecidableEq

/-! ## `prepare_features` -/

/-- Value of `np.log` / polars `.log()` in the `Option ℚ` model: finite
(with abstract value `lg x`) exactly on positive inputs; `log 0 = -Inf`
and `log` of a negative number is NaN, both non-finite, hence `none`. -/
def npLog (lg : ℚ → ℚ) (x : ℚ) : Option ℚ :=
  if 0 < x then some (lg x) else none

/-- A `Row` enriched with the three derived columns that
`prepare_features` appends via `with_columns`. -/
structure EnrichedRow extends Row where
  ivs_2010_inverted : ℚ
  gini_2010_inverted : ℚ
  renda_per_capita_log : Option ℚ
deriving Repr, DecidableEq

/-- The `with_columns` step of `prepare_features` on one row:
`ivs_2010_inverted = 1 - ivs_2010`, `gini_2010_inverted = 1 - gini_2010`,
`renda_per_capita_log = log renda_per_capita_2010`. -/
def enrich_row (lg : ℚ → ℚ) (r : Row) : EnrichedRow :=
  { toRow := r
    ivs_2010_inverted := 1 - r.ivs_2010
    gini_2010_inverted := 1 - r.gini_2010
    renda_per_capita_log := npLog lg r.renda_per_capita_2010 }

/-- The `with_columns` step of `prepare_features` over the frame. -/
def with_derived_columns (lg : ℚ → ℚ) (df : List Row) : List EnrichedRow :=
  df.map (enrich_row lg)

/-- The `df.select(feature_cols)` projection of one enriched row, in the
fixed order of `feature_cols` (equal to `CLUSTERING_FEATURES`). -/
def select_features (e : EnrichedRow) : List (Option ℚ) :=
  [some e.idhm_2010, some e.idhm_educacao, some e.idhm_renda,
   some e.ivs_2010_inverted, some e.gini_2010_inverted,
   e.renda_per_capita_log]

/-- The matrix `X = df.select(feature_cols).to_numpy()`: row-major,
one length-6 list per municipality. -/
def to_numpy (lg : ℚ → ℚ) (df : List Row) : List (List (Option ℚ)) :=
  (with_derived_columns lg df).map select_features

/-- Feature vector of one row as the spec words it: the three HDI
components passed through unchanged, `1 - vulnerability_index`,
`1 - gini`, and the natural log of income per capita.  Stated from the
spec, for comparison with the matrix the code builds. -/
def spec_feature_vector (lg : ℚ → ℚ) (r : Row) : List (Option ℚ) :=
  [some r.idhm_2010, some r.idhm_educacao, some r.idhm_renda,
   some (1 - r.ivs_2010), some (1 - r.gini_2010),
   npLog lg r.renda_per_capita_2010]

/-- Column `j` of a row-major matrix (`X[:, j]`). -/
def matrix_col (X : List (List (Option ℚ))) (j : Nat) : List (Option ℚ) :=
  X.map (fun row => row.getD j none)

/-- The finite entries of a column (`col[np.isfinite(col)]`). -/
def finite_vals (col : List (Option ℚ)) : List ℚ :=
  col.filterMap id

/-- Median of a list of rationals, the value of `np.nanmedian` on an
array of finite floats: average of the two middle order statistics
(which coincide for odd length); `none` on the empty list, where
`np.nanmedian` yields NaN. -/
def medianQ (l : List ℚ) : Option ℚ :=
  let s := l.insertionSort (· ≤ ·)
  if s.length = 0 then none
  else some ((s.getD ((s.length - 1) / 2) 0 + s.getD (s.length / 2) 0) / 2)

/-- One iteration of the NaN-handling loop of `prepare_features`: if the
column has any non-finite entry, each non-finite entry is replaced by
the median of the column's finite entries (when the column has no
finite entry at all, `np.nanmedian` of the empty selection is NaN and
the entries stay non-finite). -/
def fix_column (col : List (Option ℚ)) : List (Option ℚ) :=
  if col.any (fun v => v.isNone) then
    col.map (fun v => match v with
      | some x => some x
      | none => medianQ (finite_vals col))
  else col

/-- Mean of a list of rationals (`sum / len`). -/
def mean_fin (l : List ℚ) : ℚ := l.sum / l.length

/-- Population variance of a list of rationals, the quantity
`StandardScaler` computes per dimension (NaN entries disregarded). -/
def var_fin (l : List ℚ) : ℚ :=
  ((l.map (fun x => (x - mean_fin l) ^ 2)).sum) / l.length

/-- The `StandardScaler` transform of one column: non-finite entries are
disregarded when fitting and maintained by the transform; a zero
variance gives scale 1 (sklearn `_handle_zeros_in_scale`), so a
zero-variance dimension maps every entry to 0. -/
def standardize_column (sqrtQ : ℚ → ℚ) (col : List (Option ℚ)) : List (Option ℚ) :=
  let fins := finite_vals col
  let scale := if var_fin fins = 0 then 1 else sqrtQ (var_fin fins)
  col.map (Option.map (fun x => (x - mean_fin fins) / scale))

/-- The matrix `X_scaled` of `prepare_features`: each of the six columns
passes through the NaN-handling loop and the scaler; the result is
rebuilt row-major. -/
def scaled_matrix (lg sqrtQ : ℚ → ℚ) (df : List Row) : List (List (Option ℚ)) :=
  let cols := (List.range 6).map
    (fun j => standardize_column sqrtQ (fix_column (matrix_col (to_numpy lg df) j)))
  (List.range df.length).map (fun i => cols.map (fun c => c.getD i none))

/-- The `prepare_features` stage.  The source function contains no
raise statement and performs no row-count or column-presence check;
the only failing execution on an input of this schema is the
`ValueError` that `StandardScaler.fit` raises on a 0-sample matrix,
modelled as a `libraryFailure`.  On every non-empty input the stage
returns the scaled matrix together with the enriched frame. -/
def prepare_features (lg sqrtQ : ℚ → ℚ) (df : List Row) :
    Except RunError (List (List (Option ℚ)) × List EnrichedRow) :=
  if df.isEmpty then .error (.libraryFailure "StandardScaler: 0 samples")
  else .ok (scaled_matrix lg sqrtQ df, with_derived_columns lg df)

/-! ## `run_clustering` -/

/-- The `run_clustering` stage.  `km` abstracts the fitted KMeans model
of the external library (not code of this repository); the wrapper
itself defines no error condition: it raises nothing of its own and
returns the library's labels unchanged.  The two failing executions are
library `ValueError`s: KMeans rejects `n_samples < n_clusters`, and
`silhouette_score` rejects a label set whose size is outside
`[2, n_samples - 1]`. -/
def run_clustering (km : List (List (Option ℚ)) → List Nat) (n_clusters : Nat)
    (X : List (List (Option ℚ))) : Except RunError (List Nat) :=
  if X.length < n_clusters then
    .error (.libraryFailure "KMeans: n_samples < n_clusters")
  else
    let labels := km X
    let d := labels.dedup.length
    if d < 2 ∨ X.length - 1 < d then
      .error (.libraryFailure "silhouette_score: invalid number of labels")
    else .ok labels

/-! ## `order_clusters_by_development` -/

/-- A row of the frame returned by `order_clusters_by_development`: the
input row plus exactly the two columns `cluster_id` and `cluster_label`
(the temporary `cluster_raw` column is dropped before returning; it has
no field here). -/
structure ORow extends Row where
  cluster_id : Option Nat
  cluster_label : String
deriving Repr, DecidableEq

/-- Mean `idhm_2010` over the rows of the labelled frame that carry raw
cluster id `g` — the `mean_idhm` aggregate of the `group_by` in
`order_clusters_by_development`. -/
def mean_idhm (joined : List (Row × Nat)) (g : Nat) : ℚ :=
  mean_fin ((joined.filter (fun p => p.2 = g)).map (fun p => p.1.idhm_2010))

/-- Descending order on mean HDI: the sort key relation of the
`cluster_means` sort. -/
def dev_order (a b : Nat × ℚ) : Prop := b.2 ≤ a.2

instance : DecidableRel dev_order :=
  fun a b => inferInstanceAs (Decidable (b.2 ≤ a.2))

instance : IsTotal (Nat × ℚ) dev_order := ⟨fun a b => le_total b.2 a.2⟩

instance : IsTrans (Nat × ℚ) dev_order := ⟨fun _ _ _ h1 h2 => le_trans h2 h1⟩

/-- The `cluster_means` frame: one `(raw id, mean idhm)` pair per group,
sorted by mean descending.  `gorder` is the enumeration order in which
`group_by` yields the distinct raw ids (nondeterministic in the
library); the sort is a stable sort over that enumeration, which
reaches exactly the outcomes the library's non-order-maintaining sort
can produce. -/
def cluster_means (joined : List (Row × Nat)) (gorder : List Nat) :
    List (Nat × ℚ) :=
  (gorder.map (fun g => (g, mean_idhm joined g))).insertionSort dev_order

/-- The `cluster_mapping` dictionary: raw cluster id of the sorted frame's
row `idx` maps to ordered id `idx`. -/
def cluster_mapping (joined : List (Row × Nat)) (gorder : List Nat) :
    List (Nat × Nat) :=
  (cluster_means joined gorder).enum.map (fun p => (p.2.1, p.1))

/-- The per-row effect of the two `with_columns` of
`order_clusters_by_development`: `cluster_id` via
`replace_strict(mapping, default=None)` and `cluster_label` via
`replace_strict(CLUSTER_LABELS, default="Desconhecido")`. -/
def assign_row (mapping : List (Nat × Nat)) (p : Row × Nat) : ORow :=
  let cid := dict_get mapping p.2
  { toRow := p.1
    cluster_id := cid
    cluster_label := (cid.bind (dict_get CLUSTER_LABELS)).getD "Desconhecido" }

/-- The `order_clusters_by_development` stage: attach the raw labels,
build the mapping, assign ordered id and label per row; the temporary
raw column is dropped. -/
def order_clusters_by_development (df : List Row) (labels : List Nat)
    (gorder : List Nat) : List ORow :=
  (df.zip labels).map
    (assign_row (cluster_mapping (df.zip labels) gorder))

/-- The labeling stage seen as a fallible computation.  The source
function contains no raise statement (both `replace_strict` calls carry
a default, so no unmatched value can raise), and the module defines no
`LabelConfigurationError`; hence the stage succeeds on every input. -/
def order_clusters_by_developmentE (df : List Row) (labels : List Nat)
    (gorder : List Nat) : Except RunError (List ORow) :=
  .ok (order_clusters_by_development df labels gorder)

/-- The `idhm_2010` values of the output rows assigned ordered id `i`. -/
def group_idhm_values (out : List ORow) (i : Nat) : List ℚ :=
  (out.filter (fun o => o.cluster_id = some i)).map (fun o => o.idhm_2010)

/-- Mean `idhm_2010` of the output group with ordered id `i`. -/
def ordered_group_mean_idhm (out : List ORow) (i : Nat) : ℚ :=
  mean_fin (group_idhm_values out i)

/-! ## `generate_cluster_profiles` -/

/-- One row of the profile frame built by `generate_cluster_profiles`. -/
structure ClusterProfile where
  cluster_id : Option Nat
  cluster_label : String
  num_municipios : Nat
  total_populacao : Int
  avg_idhm : ℚ
  std_idhm : Option ℚ
  min_idhm : ℚ
  max_idhm : ℚ
  avg_ivs : ℚ
  avg_gini : ℚ
  avg_renda_pc : ℚ
deriving Repr, DecidableEq

/-- Sample variance (ddof = 1), the quantity under polars `.std()`. -/
def sample_var (l : List ℚ) : ℚ :=
  ((l.map (fun x => (x - mean_fin l) ^ 2)).sum) / (l.length - 1)

/-- Polars `.std()` aggregate: `null` on fewer than two values, else the
square root (abstracted as `sqrtQ`) of the sample variance. -/
def std_agg (sqrtQ : ℚ → ℚ) (l : List ℚ) : Option ℚ :=
  if l.length < 2 then none else some (sqrtQ (sample_var l))

/-- Ordering on the `cluster_id` sort key: polars sorts nulls first. -/
def opt_le (a b : Option Nat) : Prop :=
  match a, b with
  | none, _ => True
  | some _, none => False
  | some x, some y => x ≤ y

instance : DecidableRel opt_le := fun a b =>
  match a, b with
  | none, _ => Decidable.isTrue trivial
  | some _, none => Decidable.isFalse (fun h => h)
  | some x, some y => Nat.decLe x y

/-- The sort key relation of `generate_cluster_profiles`. -/
def key_le (a b : Option Nat × String) : Prop := opt_le a.1 b.1

instance : DecidableRel key_le := fun a b =>
  inferInstanceAs (Decidable (opt_le a.1 b.1))

/-- The aggregate row of `generate_cluster_profiles` for one group key,
computed over the member rows of that group. -/
def profile_of (sqrtQ : ℚ → ℚ) (out : List ORow) (key : Option Nat × String) :
    ClusterProfile :=
  let members := out.filter
    (fun o => o.cluster_id = key.1 ∧ o.cluster_label = key.2)
  let idhms := members.map (fun o => o.idhm_2010)
  { cluster_id := key.1
    cluster_label := key.2
    num_municipios := members.length
    total_populacao := (members.map (fun o => o.populacao)).sum
    avg_idhm := mean_fin idhms
    std_idhm := std_agg sqrtQ idhms
    min_idhm := (idhms.min?).getD 0
    max_idhm := (idhms.max?).getD 0
    avg_ivs := mean_fin (members.map (fun o => o.ivs_2010))
    avg_gini := mean_fin (members.map (fun o => o.gini_2010))
    avg_renda_pc := mean_fin (members.map (fun o => o.renda_per_capita_2010)) }

/-- The `generate_cluster_profiles` stage: `group_by` over the
`(cluster_id, cluster_label)` pairs present in the frame (one group per
distinct pair actually occurring), aggregate, and sort by `cluster_id`.
The group enumeration order of the library is immaterial here because
the final sort key is distinct across groups, so the result is the
aggregate over the distinct keys in ascending `cluster_id` order. -/
def generate_cluster_profiles (sqrtQ : ℚ → ℚ) (out : List ORow) :
    List ClusterProfile :=
  let keys := (out.map (fun o => (o.cluster_id, o.cluster_label))).dedup
  let sorted := keys.insertionSort key_le
  sorted.map (profile_of sqrtQ out)

/-! ## `export_to_dbt_seed` -/

/-- Decimal rendering of a natural number, digit characters only. -/
def digit_char (n : Nat) : Char :=
  match n with
  | 0 => '0' | 1 => '1' | 2 => '2' | 3 => '3' | 4 => '4'
  | 5 => '5' | 6 => '6' | 7 => '7' | 8 => '8' | _ + 9 => '9'

/-- Decimal rendering of a natural number as a character list. -/
def render_nat (n : Nat) : List Char :=
  if _h : n < 10 then [digit_char n]
  else render_nat (n / 10) ++ [digit_char (n % 10)]
decreasing_by
  exact Nat.div_lt_self (by omega) (by omega)

/-- Numeric value of a digit character. -/
def digit_val (c : Char) : Nat := c.toNat - 48

/-- Decimal parsing of a character list. -/
def chars_to_nat (cs : List Char) : Nat :=
  cs.foldl (fun a c => 10 * a + digit_val c) 0

/-- CSV rendering of one field: quoted, with inner quotes doubled, when
the field contains a separator, a quote or a newline; verbatim
otherwise (the necessary-only quoting of polars `write_csv`). -/
def render_field (cs : List Char) : List Char :=
  if cs.any (fun c => c = ',' ∨ c = '"' ∨ c = '\n') then
    '"' :: (cs.flatMap (fun c => if c = '"' then ['"', '"'] else [c])) ++ ['"']
  else cs

/-- CSV rendering of the `cluster_id` cell: empty for null, decimal
otherwise. -/
def render_cell : Option Nat → List Char
  | none => []
  | some n => render_nat n

/-- One data line of the seed CSV, in the fixed column order
`id_municipio_ibge, cluster_id, cluster_label`. -/
def render_row (r : List Char × Option Nat × List Char) : List Char :=
  render_field r.1 ++ [','] ++ render_cell r.2.1 ++ [','] ++ render_field r.2.2

/-- The header line written by `write_csv` for the selected columns. -/
def csv_header : List Char := "id_municipio_ibge,cluster_id,cluster_label".data

/-- The full file content polars `write_csv` produces: header line and
one line per row, each line terminated by a newline, no index column. -/
def write_csv (rows : List (List Char × Option Nat × List Char)) : List Char :=
  (csv_header ++ ['\n']) ++ (rows.map (fun r => render_row r ++ ['\n'])).flatten

/-- The `df.select` of `export_to_dbt_seed`: the three exported columns
of each row, in order. -/
def seed_select (out : List ORow) : List (List Char × Option Nat × List Char) :=
  out.map (fun o => (o.id_municipio_ibge.data, o.cluster_id, o.cluster_label.data))

/-- The seed output path constant `SEED_OUTPUT_PATH` (relative to the
project root). -/
def SEED_OUTPUT_PATH : String := "dbt_project/seeds/seed_cluster_assignments.csv"

/-- File-system operations the exporter can perform. -/
inductive FsOp where
  | mkdirParents : String → FsOp
  | writeFile : String → List Char → FsOp
  | rename : String → String → FsOp
deriving Repr, DecidableEq

/-- The `export_to_dbt_seed` stage as its trace of file-system
operations: ensure the parent directory exists, then write the CSV
directly to the output path.  The source performs no write to any other
path and no rename. -/
def export_to_dbt_seed (out : List ORow) : List FsOp :=
  [.mkdirParents "dbt_project/seeds",
   .writeFile SEED_OUTPUT_PATH (write_csv (seed_select out))]

/-- The atomic-replace discipline the spec prescribes for the exporter:
all writes go to a single temporary path distinct from the output path,
and the trace renames that temporary path onto the output path. -/
def atomic_replace_discipline (t : List FsOp) : Prop :=
  ∃ tmp, tmp ≠ SEED_OUTPUT_PATH ∧
    (∀ p c, FsOp.writeFile p c ∈ t → p = tmp) ∧
    FsOp.rename tmp SEED_OUTPUT_PATH ∈ t

/-! ## CSV reader -/

/-- Split a character list on a separator; the result always has one
more chunk than there are separator occurrences. -/
def split_on (sep : Char) : List Char → List (List Char)
  | [] => [[]]
  | c :: cs =>
    match split_on sep cs with
    | [] => if c = sep then [[], []] else [[c]]
    | h :: t => if c = sep then [] :: h :: t else (c :: h) :: t

/-- Parse the `cluster_id` cell back: empty means null. -/
def parse_cell (cs : List Char) : Option Nat :=
  if cs = [] then none else some (chars_to_nat cs)

/-- Parse one data line into the exported triple. -/
def parse_line (l : List Char) : Option (List Char × Option Nat × List Char) :=
  match split_on ',' l with
  | [a, b, c] => some (a, parse_cell b, c)
  | _ => none

/-- Parse a seed CSV file back into its rows: the file must end in a
newline, start with the expected header line, and every data line must
have exactly three fields. -/
def parse_csv (content : List Char) :
    Option (List (List Char × Option Nat × List Char)) :=
  let lines := split_on '\n' content
  if lines.getLast? = some [] then
    match lines.dropLast with
    | [] => none
    | header :: rows =>
      if header = csv_header then rows.mapM parse_line else none
  else none

/-! ## Concrete fixtures

Small concrete inputs used by counterexamples and witnesses. -/

/-- A municipality row with the given code, HDI value (repeated for the
three HDI components) and income per capita; the remaining identity and
indicator fields are fixed innocuous values. -/
def mk_row (code : String) (idhm renda : ℚ) : Row :=
  { id_municipio_ibge := code
    nome_municipio := "Cidade"
    sigla_uf := "SP"
    regiao := "Sudeste"
    populacao := 1000
    porte_municipio := "Pequeno"
    idhm_2010 := idhm
    idhm_educacao := idhm
    idhm_longevidade := idhm
    idhm_renda := idhm
    ivs_2010 := 1/2
    gini_2010 := 1/2
    renda_per_capita_2010 := renda }

/-- Two municipalities with identical HDI, one per raw group: a mean-HDI
tie between raw groups 0 and 1. -/
def df_tie : List Row := [mk_row "1100015" (1/2) 10, mk_row "1100023" (1/2) 10]

/-- A three-row input, fewer rows than the k = 5 of production runs. -/
def df3 : List Row :=
  [mk_row "1100015" (1/2) 10, mk_row "1100023" (3/4) 10, mk_row "1100031" (1/4) 10]

/-- Six municipalities with pairwise distinct HDI, one per raw group:
a run with six groups against the five-entry label table. -/
def df6 : List Row :=
  [mk_row "1" (6/10) 10, mk_row "2" (5/10) 10, mk_row "3" (4/10) 10,
   mk_row "4" (3/10) 10, mk_row "5" (2/10) 10, mk_row "6" (1/10) 10]

/-- Two municipalities whose income per capita is 0, so the log-income
column has no finite entry at all. -/
def df_zero : List Row := [mk_row "1100015" (1/2) 0, mk_row "1100023" (1/2) 0]

/-- Three municipalities, one with income 0: the log-income column has
finite entries, and after median replacement it has zero variance. -/
def df_fin : List Row :=
  [mk_row "1100015" (1/2) 2, mk_row "1100023" (3/4) 0, mk_row "1100031" (1/2) 2]

/-- Two municipalities with distinct HDI, one per raw group. -/
def df_ord : List Row := [mk_row "1100015" (9/10) 10, mk_row "1100023" (3/10) 10]

/-- A single-row input. -/
def df1 : List Row := [mk_row "1100015" (1/2) 10]

/-- The assignment row the pipeline produces for the single row of
`df1` under enumeration order `[0]`. -/
def orow1 : ORow :=
  { toRow := mk_row "1100015" (1/2) 10
    cluster_id := some 0
    cluster_label := "Polos de Desenvolvimento" }

/-- An assignment row in ordered group 1. -/
def orow2 : ORow :=
  { toRow := mk_row "1100023" (1/4) 10
    cluster_id := some 1
    cluster_label := "Desenvolvimento Avancado" }

/-- A KMeans stand-in whose fitted labels use only groups 0 and 1. -/
def km0 : List (List (Option ℚ)) → List Nat := fun _ => [0, 0, 0, 1, 1]

/-- A 5-sample feature matrix. -/
def X0 : List (List (Option ℚ)) := List.replicate 5 (List.replicate 6 (some 0))

/-- The label strings a finished run can attach: the five table entries
plus the `replace_strict` fallback. -/
def label_strings : List String := CLUSTER_LABELS.map Prod.snd ++ ["Desconhecido"]

/-! ## C8: the derived feature vector -/

/-- C8: for every input row, the derived feature vector has exactly six
dimensions: the three HDI components unchanged, `1 - ivs_2010`,
`1 - gini_2010`, and the log of income per capita, in that order; the
matrix `X` extracted by `prepare_features` is exactly this vector per
row. -/
theorem to_numpy_eq_spec_feature_vector (lg : ℚ → ℚ) (df : List Row) :
    to_numpy lg df = df.map (spec_feature_vector lg) ∧
    ∀ v ∈ to_numpy lg df, v.length = 6 := by
  constructor
  · simp only [to_numpy, with_derived_columns, List.map_map]
    rfl
  · intro v hv
    simp only [to_numpy, with_derived_columns, List.map_map, List.mem_map] at hv
    obtain ⟨r, -, rfl⟩ := hv
    rfl

/-- Witness for C8 at a concrete input. -/
theorem to_numpy_eq_spec_feature_vector_witness :
    (to_numpy id df1 = df1.map (spec_feature_vector id)) ∧
    (select_features (enrich_row id (mk_row "1100015" (1/2) 10))).length = 6 := by
  refine ⟨(to_numpy_eq_spec_feature_vector id df1).1, ?_⟩
  exact (to_numpy_eq_spec_feature_vector id df1).2 _
    (by simp [to_numpy, with_derived_columns, df1])

/-! ## C5: the exporter's write discipline -/

/-- C5 counterexample: the exporter's trace contains a direct write to
the output path and no rename at all, so the prescribed
write-to-temporary-then-rename discipline does not hold even for a
one-row export. -/
theorem export_not_atomic_counterexample :
    (∃ c, FsOp.writeFile SEED_OUTPUT_PATH c ∈ export_to_dbt_seed [orow1]) ∧
    ¬ atomic_replace_discipline (export_to_dbt_seed [orow1]) := by
  constructor
  · exact ⟨write_csv (seed_select [orow1]), by simp [export_to_dbt_seed]⟩
  · rintro ⟨tmp, -, -, hr⟩
    simp [export_to_dbt_seed] at hr

/-- C5 amended: the exporter ensures the parent directory exists and
then performs exactly one file write, directly to `SEED_OUTPUT_PATH`,
whose content is the CSV of the three selected columns; no rename
occurs, so a failure mid-write is not shielded from readers. -/
theorem export_to_dbt_seed_direct_write (out : List ORow) :
    ((export_to_dbt_seed out).filterMap (fun op => match op with
        | FsOp.writeFile p c => some (p, c)
        | _ => none)) =
      [(SEED_OUTPUT_PATH, write_csv (seed_select out))] ∧
    ((export_to_dbt_seed out).filter (fun op => match op with
        | FsOp.rename _ _ => true
        | _ => false)) = [] := by
  exact ⟨rfl, rfl⟩

/-! ## C2: no sufficiency check in `prepare_features` -/

/-- C2 counterexample: on a 3-row input with k = 5 requested,
`prepare_features` does not raise `InsufficientDataError` — it returns
a feature matrix and the pipeline goes on to attempt the partition. -/
theorem prepare_features_small_input_counterexample :
    df3.length = 3 ∧ df3.length < 5 ∧
    prepare_features id id df3 ≠ Except.error RunError.insufficientData ∧
    (prepare_features id id df3).isOk = true := by
  refine ⟨rfl, by decide, ?_, rfl⟩
  intro h
  simp [prepare_features, df3] at h

/-- C2 amended: `prepare_features` performs no row-count (or column)
validation: on every non-empty input — in particular on inputs with
fewer rows than the requested group count — it succeeds and returns an
N×6 matrix, and the pipeline proceeds to the partition attempt, which
fails only inside the external KMeans library. -/
theorem prepare_features_no_sufficiency_check (lg sqrtQ : ℚ → ℚ)
    (df : List Row) (h : df ≠ []) :
    prepare_features lg sqrtQ df =
      .ok (scaled_matrix lg sqrtQ df, with_derived_columns lg df) ∧
    (scaled_matrix lg sqrtQ df).length = df.length ∧
    ∀ row ∈ scaled_matrix lg sqrtQ df, row.length = 6 := by
  refine ⟨?_, ?_, ?_⟩
  · simp [prepare_features, h]
  · simp [scaled_matrix]
  · intro row hrow
    simp only [scaled_matrix, List.mem_map] at hrow
    obtain ⟨i, -, rfl⟩ := hrow
    simp

/-- Witness for C2's amended statement at the 3-row fixture. -/
theorem prepare_features_no_sufficiency_check_witness :
    prepare_features id id df3 =
      .ok (scaled_matrix id id df3, with_derived_columns id df3) ∧
    (scaled_matrix id id df3).length = df3.length := by
  have h := prepare_features_no_sufficiency_check id id df3 (by simp [df3])
  exact ⟨h.1, h.2.1⟩

/-! ## C3: no empty-group check in `run_clustering` -/

/-- C3 counterexample: a clustering result that leaves group 2 (of the
five requested) empty is returned unchanged by `run_clustering`; no
`DegenerateClusterError` is raised and the run does not abort. -/
theorem run_clustering_empty_group_counterexample :
    ((2 : Nat) < 5 ∧ (2 : Nat) ∉ km0 X0) ∧
    run_clustering km0 5 X0 = .ok [0, 0, 0, 1, 1] := by
  exact ⟨⟨by decide, by decide⟩, rfl⟩

/-- C3 amended: `run_clustering` performs no empty-group check: whenever
the library calls themselves succeed (at least k samples, and a label
set of valid size for the silhouette computation), the stage returns
the library's labels unchanged — even when some group in `0..k-1` has
no member. -/
theorem run_clustering_no_empty_group_check
    (km : List (List (Option ℚ)) → List Nat) (k : Nat)
    (X : List (List (Option ℚ)))
    (h1 : k ≤ X.length) (h2 : 2 ≤ (km X).dedup.length)
    (h3 : (km X).dedup.length ≤ X.length - 1) :
    run_clustering km k X = .ok (km X) := by
  simp only [run_clustering]
  rw [if_neg (by omega), if_neg (by omega)]

/-- Witness for C3's amended statement: the labels `[0,0,0,1,1]` leave
groups 2, 3 and 4 empty yet are returned as-is. -/
theorem run_clustering_no_empty_group_check_witness :
    run_clustering km0 5 X0 = .ok (km0 X0) := by
  exact run_clustering_no_empty_group_check km0 5 X0 (by decide) (by decide)
    (by decide)

/-! ## C4: label table mismatch -/

/-- Ordered ids 0 to 4 have an entry in the label table. -/
theorem dict_get_CLUSTER_LABELS_lt (i : Nat) (h : i < 5) :
    ∃ s, dict_get CLUSTER_LABELS i = some s := by
  interval_cases i <;> exact ⟨_, rfl⟩

/-- Ordered ids from 5 on have no entry in the label table. -/
theorem dict_get_CLUSTER_LABELS_ge (i : Nat) (h : 5 ≤ i) :
    dict_get CLUSTER_LABELS i = none := by
  simp only [CLUSTER_LABELS, dict_get]
  rw [if_neg (by omega), if_neg (by omega), if_neg (by omega),
    if_neg (by omega), if_neg (by omega)]

/-- C4 counterexample: a run with six raw groups against the five-entry
label table does not fail with `LabelConfigurationError` — the labeling
stage succeeds and hands the sixth ordered group the fallback label
"Desconhecido". -/
theorem order_clusters_label_mismatch_counterexample :
    CLUSTER_LABELS.length = 5 ∧
    ((df6.zip [0, 1, 2, 3, 4, 5]).map Prod.snd).dedup.length = 6 ∧
    order_clusters_by_developmentE df6 [0, 1, 2, 3, 4, 5] [0, 1, 2, 3, 4, 5] =
      .ok (order_clusters_by_development df6 [0, 1, 2, 3, 4, 5]
        [0, 1, 2, 3, 4, 5]) ∧
    (∃ o ∈ order_clusters_by_development df6 [0, 1, 2, 3, 4, 5]
        [0, 1, 2, 3, 4, 5], o.cluster_id = some 5 ∧
        o.cluster_label = "Desconhecido") := by
  refine ⟨rfl, by decide, rfl, ?_⟩
  with_unfolding_all decide

/-- C4 amended: the labeling stage never raises (the module defines no
`LabelConfigurationError` and both `replace_strict` calls carry a
default): when the group count exceeds the five-entry table, ordered
ids 5 and above receive the fallback label "Desconhecido" instead,
while ids below 5 receive their table entry. -/
theorem order_clusters_fallback_label (df : List Row) (labels : List Nat)
    (gorder : List Nat) :
    order_clusters_by_developmentE df labels gorder =
      .ok (order_clusters_by_development df labels gorder) ∧
    ∀ o ∈ order_clusters_by_development df labels gorder,
      (∀ i, o.cluster_id = some i →
        (i < 5 → dict_get CLUSTER_LABELS i = some o.cluster_label) ∧
        (5 ≤ i → o.cluster_label = "Desconhecido")) ∧
      (o.cluster_id = none → o.cluster_label = "Desconhecido") := by
  refine ⟨rfl, ?_⟩
  intro o ho
  simp only [order_clusters_by_development, List.mem_map] at ho
  obtain ⟨p, -, rfl⟩ := ho
  refine ⟨?_, ?_⟩
  · intro i hi
    simp only [assign_row] at hi
    constructor
    · intro hlt
      obtain ⟨s, hs⟩ := dict_get_CLUSTER_LABELS_lt i hlt
      simp [assign_row, hi, hs]
    · intro hge
      simp [assign_row, hi, dict_get_CLUSTER_LABELS_ge i hge]
  · intro hnone
    simp only [assign_row] at hnone
    simp [assign_row, hnone]

set_option maxRecDepth 10000 in
/-- Witness for C4's amended statement: the label of ordered group 0 is
resolved from the table. -/
theorem order_clusters_fallback_label_witness :
    dict_get CLUSTER_LABELS 0 = some orow1.cluster_label := by
  have h := ((order_clusters_fallback_label df1 [0] [0]).2 orow1
    (by with_unfolding_all decide)).1 0 (by with_unfolding_all decide)
  exact h.1 (by omega)

/-! ## C10: frame effect of the ordering stage -/

/-- C10: `order_clusters_by_development` preserves every input row, with
its values and its position, and only attaches the `cluster_id` and
`cluster_label` fields (the `ORow` record carries exactly the input
columns plus those two; the temporary raw column has no field). -/
theorem order_clusters_frame_effect (df : List Row) (labels : List Nat)
    (gorder : List Nat) (hlen : labels.length = df.length) :
    ((order_clusters_by_development df labels gorder).map
        (fun o => o.toRow) = df) ∧
    (order_clusters_by_development df labels gorder).length = df.length := by
  constructor
  · simp only [order_clusters_by_development, List.map_map]
    exact List.map_fst_zip df labels (le_of_eq hlen.symm)
  · simp [order_clusters_by_development, hlen]

/-- Witness for C10 at a concrete input. -/
theorem order_clusters_frame_effect_witness :
    (order_clusters_by_development df1 [0] [0]).map (fun o => o.toRow) = df1 :=
  (order_clusters_frame_effect df1 [0] [0] rfl).1

/-! ## C1: ordering, bijection and the tie-break -/

/-- A dictionary lookup succeeds exactly on the stored keys. -/
theorem dict_get_eq_some_iff {β : Type} {m : List (Nat × β)}
    (hm : (m.map Prod.fst).Nodup) (g : Nat) (v : β) :
    dict_get m g = some v ↔ (g, v) ∈ m := by
  induction m with
  | nil => simp [dict_get]
  | cons kv rest ih =>
    obtain ⟨k, w⟩ := kv
    simp only [List.map_cons, List.nodup_cons] at hm
    by_cases h : k = g
    · subst h
      simp only [dict_get, eq_self_iff_true, if_true, List.mem_cons,
        Prod.mk.injEq, true_and]
      constructor
      · intro h1
        exact Or.inl (Option.some.inj h1).symm
      · rintro (h1 | h1)
        · rw [h1]
        · exact absurd (List.mem_map_of_mem Prod.fst h1) hm.1
    · simp only [dict_get, if_neg h, List.mem_cons, Prod.mk.injEq]
      rw [ih hm.2]
      constructor
      · exact Or.inr
      · rintro (⟨h1, -⟩ | h1)
        · exact absurd h1.symm h
        · exact h1

/-- The sorted mean frame is a permutation of the per-group mean list. -/
theorem cluster_means_perm (joined : List (Row × Nat)) (gorder : List Nat) :
    (cluster_means joined gorder).Perm
      (gorder.map (fun g => (g, mean_idhm joined g))) :=
  List.perm_insertionSort dev_order _

/-- The sorted mean frame has one row per enumerated group. -/
theorem cluster_means_length (joined : List (Row × Nat)) (gorder : List Nat) :
    (cluster_means joined gorder).length = gorder.length := by
  simpa using (cluster_means_perm joined gorder).length_eq

/-- The raw ids of the sorted mean frame are the enumerated groups. -/
theorem cluster_means_fst_perm (joined : List (Row × Nat)) (gorder : List Nat) :
    ((cluster_means joined gorder).map Prod.fst).Perm gorder := by
  have h := (cluster_means_perm joined gorder).map Prod.fst
  simpa [List.map_map, Function.comp_def] using h

/-- Every row of the sorted mean frame stores the mean HDI of its raw
group. -/
theorem cluster_means_entry {joined : List (Row × Nat)} {gorder : List Nat}
    {x : Nat × ℚ} (hx : x ∈ cluster_means joined gorder) :
    x.2 = mean_idhm joined x.1 := by
  have h := (cluster_means_perm joined gorder).mem_iff.mp hx
  simp only [List.mem_map] at h
  obtain ⟨g, -, rfl⟩ := h
  rfl

/-- The mapping's keys are the raw ids of the sorted mean frame. -/
theorem cluster_mapping_fst (joined : List (Row × Nat)) (gorder : List Nat) :
    (cluster_mapping joined gorder).map Prod.fst =
      (cluster_means joined gorder).map Prod.fst := by
  conv_rhs => rw [← List.enum_map_snd (cluster_means joined gorder)]
  simp only [cluster_mapping, List.map_map]
  rfl

/-- Membership in the mapping pairs a raw id with the position of its
row in the sorted mean frame. -/
theorem mem_cluster_mapping_iff {joined : List (Row × Nat)} {gorder : List Nat}
    {g i : Nat} :
    (g, i) ∈ cluster_mapping joined gorder ↔
      ∃ x, (cluster_means joined gorder)[i]? = some x ∧ x.1 = g := by
  simp only [cluster_mapping, List.mem_map]
  constructor
  · rintro ⟨⟨j, x⟩, hmem, heq⟩
    rw [Prod.mk.injEq] at heq
    obtain ⟨h1, rfl⟩ := heq
    exact ⟨x, List.mem_enum_iff_getElem?.mp hmem, h1⟩
  · rintro ⟨x, hx, rfl⟩
    exact ⟨(i, x), List.mem_enum_iff_getElem?.mpr (by simpa using hx), rfl⟩

/-- The `idhm_2010` values of the output rows assigned ordered id `t`
are exactly those of the input rows whose raw id is mapped to `t`. -/
theorem assigned_group_values (mp : List (Nat × Nat)) (t g : Nat)
    (joined : List (Row × Nat))
    (hiff : ∀ p ∈ joined, (dict_get mp p.2 = some t ↔ p.2 = g)) :
    ((joined.map (assign_row mp)).filter
        (fun o => o.cluster_id = some t)).map (fun o => o.idhm_2010) =
      (joined.filter (fun p => p.2 = g)).map (fun p => p.1.idhm_2010) := by
  induction joined with
  | nil => rfl
  | cons p rest ih =>
    have hiff_p := hiff p (by simp)
    have ih' := ih (fun q hq => hiff q (by simp [hq]))
    by_cases h : p.2 = g
    · have hd : dict_get mp p.2 = some t := hiff_p.mpr h
      rw [h] at hd
      simp [assign_row, hd, h, ih']
    · have hd : ¬ dict_get mp p.2 = some t := fun hc => h (hiff_p.mp hc)
      simp [assign_row, hd, h, ih']

/-- C1 amended: for every admissible group enumeration order, the
mapping from raw group id to ordered group id is total on the ids
present, injective, surjective onto `0..k-1`, is applied to every row
consistently, and orders the output groups by weakly descending mean
HDI.  The tie-break clause of the claim is dropped: equal-mean groups
are ordered by the library's unspecified enumeration order (see the
counterexample). -/
theorem order_clusters_bijection_and_ordering
    (df : List Row) (labels : List Nat) (gorder : List Nat)
    (_hlen : labels.length = df.length)
    (hord : gorder.Perm ((df.zip labels).map Prod.snd).dedup) :
    (∀ p ∈ df.zip labels, ∃ i < gorder.length,
        dict_get (cluster_mapping (df.zip labels) gorder) p.2 = some i) ∧
    ((order_clusters_by_development df labels gorder).map
        (fun o => o.cluster_id) =
      (df.zip labels).map
        (fun p => dict_get (cluster_mapping (df.zip labels) gorder) p.2)) ∧
    (∀ g ∈ gorder, ∀ g' ∈ gorder,
        dict_get (cluster_mapping (df.zip labels) gorder) g =
          dict_get (cluster_mapping (df.zip labels) gorder) g' → g = g') ∧
    (∀ i < gorder.length, ∃ g ∈ gorder,
        dict_get (cluster_mapping (df.zip labels) gorder) g = some i) ∧
    (∀ i j, i < gorder.length → j < gorder.length → i ≤ j →
        ordered_group_mean_idhm
            (order_clusters_by_development df labels gorder) j ≤
          ordered_group_mean_idhm
            (order_clusters_by_development df labels gorder) i) := by
  have hgnd : gorder.Nodup := (hord.nodup_iff).mpr (List.nodup_dedup _)
  have hkeys : ((cluster_mapping (df.zip labels) gorder).map Prod.fst).Nodup := by
    rw [cluster_mapping_fst]
    exact ((cluster_means_fst_perm (df.zip labels) gorder).nodup_iff).mpr hgnd
  have hlen2 : (cluster_means (df.zip labels) gorder).length = gorder.length :=
    cluster_means_length (df.zip labels) gorder
  have hchar : ∀ g i,
      dict_get (cluster_mapping (df.zip labels) gorder) g = some i ↔
        ∃ x, (cluster_means (df.zip labels) gorder)[i]? = some x ∧ x.1 = g := by
    intro g i
    rw [dict_get_eq_some_iff hkeys, mem_cluster_mapping_iff]
  have hsome : ∀ g ∈ gorder, ∃ i < gorder.length,
      dict_get (cluster_mapping (df.zip labels) gorder) g = some i := by
    intro g hg
    have hg2 : g ∈ (cluster_means (df.zip labels) gorder).map Prod.fst :=
      (cluster_means_fst_perm (df.zip labels) gorder).mem_iff.mpr hg
    obtain ⟨x, hx, hx1⟩ := List.mem_map.mp hg2
    obtain ⟨i, hi⟩ := List.mem_iff_getElem?.mp hx
    refine ⟨i, ?_, (hchar g i).mpr ⟨x, hi, hx1⟩⟩
    have := (List.getElem?_eq_some_iff.mp hi).1
    omega
  refine ⟨?_, ?_, ?_, ?_, ?_⟩
  · intro p hp
    have hpg : p.2 ∈ gorder := by
      refine hord.mem_iff.mpr (List.mem_dedup.mpr ?_)
      exact List.mem_map_of_mem Prod.snd hp
    exact hsome p.2 hpg
  · simp only [order_clusters_by_development, List.map_map]
    rfl
  · intro g hg g' hg' heq
    obtain ⟨i, -, hi⟩ := hsome g hg
    obtain ⟨i', -, hi'⟩ := hsome g' hg'
    rw [hi, hi'] at heq
    obtain rfl := Option.some.inj heq
    obtain ⟨x, hx, hx1⟩ := (hchar g i).mp hi
    obtain ⟨x', hx', hx1'⟩ := (hchar g' i).mp hi'
    rw [hx] at hx'
    obtain rfl := Option.some.inj hx'
    rw [← hx1, hx1']
  · intro i hilt
    have hi' : i < (cluster_means (df.zip labels) gorder).length := by omega
    refine ⟨((cluster_means (df.zip labels) gorder)[i]).1, ?_, ?_⟩
    · refine (cluster_means_fst_perm (df.zip labels) gorder).mem_iff.mp ?_
      exact List.mem_map_of_mem Prod.fst (List.getElem_mem hi')
    · exact (hchar _ i).mpr
        ⟨_, List.getElem?_eq_getElem hi', rfl⟩
  · intro i j hi hj hij
    have hi' : i < (cluster_means (df.zip labels) gorder).length := by omega
    have hj' : j < (cluster_means (df.zip labels) gorder).length := by omega
    have key : ∀ (t : Nat) (ht : t < (cluster_means (df.zip labels) gorder).length),
        ordered_group_mean_idhm
            (order_clusters_by_development df labels gorder) t =
          ((cluster_means (df.zip labels) gorder)[t]).2 := by
      intro t ht
      have hiff : ∀ p ∈ df.zip labels,
          (dict_get (cluster_mapping (df.zip labels) gorder) p.2 = some t ↔
            p.2 = ((cluster_means (df.zip labels) gorder)[t]).1) := by
        intro p hp
        constructor
        · intro hd
          obtain ⟨x, hx, hx1⟩ := (hchar p.2 t).mp hd
          rw [List.getElem?_eq_getElem ht] at hx
          rw [← hx1, Option.some.inj hx]
        · intro hd
          rw [hd]
          exact (hchar _ t).mpr ⟨_, List.getElem?_eq_getElem ht, rfl⟩
      have hv := assigned_group_values
        (cluster_mapping (df.zip labels) gorder) t
        ((cluster_means (df.zip labels) gorder)[t]).1 (df.zip labels) hiff
      have hent : ((cluster_means (df.zip labels) gorder)[t]).2 =
          mean_idhm (df.zip labels)
            ((cluster_means (df.zip labels) gorder)[t]).1 :=
        cluster_means_entry (List.getElem_mem ht)
      rw [ordered_group_mean_idhm, group_idhm_values,
        order_clusters_by_development, hv, hent]
      rfl
    rw [key i hi', key j hj']
    rcases Nat.eq_or_lt_of_le hij with rfl | hlt
    · exact le_refl _
    · have hs : List.Sorted dev_order (cluster_means (df.zip labels) gorder) :=
        List.sorted_insertionSort dev_order _
      exact hs.rel_get_of_lt (a := ⟨i, hi'⟩) (b := ⟨j, hj'⟩) hlt

/-- C1 counterexample to the tie-break clause: two raw groups with
exactly equal mean HDI, under the admissible enumeration order `[1, 0]`
of `group_by`; raw group 0 (the smaller id) receives ordered id 1 and
raw group 1 receives ordered id 0. -/
theorem order_clusters_tie_break_counterexample :
    [1, 0].Perm ((df_tie.zip [0, 1]).map Prod.snd).dedup ∧
    mean_idhm (df_tie.zip [0, 1]) 0 = mean_idhm (df_tie.zip [0, 1]) 1 ∧
    (order_clusters_by_development df_tie [0, 1] [1, 0]).map
      (fun o => o.cluster_id) = [some 1, some 0] := by
  refine ⟨by decide, ?_, ?_⟩
  · with_unfolding_all decide
  · with_unfolding_all decide

/-- Witness for C1's amended statement at a concrete two-group run. -/
theorem order_clusters_bijection_and_ordering_witness :
    ordered_group_mean_idhm
        (order_clusters_by_development df_ord [0, 1] [0, 1]) 1 ≤
      ordered_group_mean_idhm
        (order_clusters_by_development df_ord [0, 1] [0, 1]) 0 := by
  have h := order_clusters_bijection_and_ordering df_ord [0, 1] [0, 1]
    rfl (by decide)
  exact h.2.2.2.2 0 1 (by decide) (by decide) (by decide)

/-! ## C7: profile rows per group -/

/-- C7 counterexample: a set of ordered assignments using only groups 0
and 1 (of the five a k = 5 run requests) yields a profile frame with
exactly those two rows; no row with `cluster_id = 2` exists, so empty
groups are omitted rather than reported with zero counts. -/
theorem generate_cluster_profiles_missing_group_counterexample :
    ((generate_cluster_profiles id [orow1, orow2]).map
        (fun p => p.cluster_id) = [some 0, some 1]) ∧
    ¬ (∀ g < 5, ∃ p ∈ generate_cluster_profiles id [orow1, orow2],
        p.cluster_id = some g) := by
  refine ⟨by with_unfolding_all decide, fun h => ?_⟩
  exact absurd (h 2 (by omega)) (by with_unfolding_all decide)

/-- C7 amended: `generate_cluster_profiles` produces exactly one profile
row per `(cluster_id, cluster_label)` pair actually present in the
assignments — no row for an absent group — and every profile row
aggregates a non-empty member set. -/
theorem generate_cluster_profiles_present_groups (sqrtQ : ℚ → ℚ)
    (out : List ORow) :
    ((generate_cluster_profiles sqrtQ out).map
        (fun p => (p.cluster_id, p.cluster_label))).Perm
      ((out.map (fun o => (o.cluster_id, o.cluster_label))).dedup) ∧
    ∀ p ∈ generate_cluster_profiles sqrtQ out, 0 < p.num_municipios := by
  constructor
  · have h1 : (generate_cluster_profiles sqrtQ out).map
        (fun p => (p.cluster_id, p.cluster_label)) =
        ((out.map (fun o => (o.cluster_id, o.cluster_label))).dedup).insertionSort
          key_le := by
      simp only [generate_cluster_profiles, List.map_map]
      have hfun : ((fun p : ClusterProfile => (p.cluster_id, p.cluster_label)) ∘
          profile_of sqrtQ out) = id := funext fun k => rfl
      rw [hfun, List.map_id]
    rw [h1]
    exact List.perm_insertionSort key_le _
  · intro p hp
    simp only [generate_cluster_profiles, List.mem_map] at hp
    obtain ⟨k, hk, rfl⟩ := hp
    have hk2 : k ∈ (out.map (fun o => (o.cluster_id, o.cluster_label))).dedup :=
      (List.perm_insertionSort key_le _).mem_iff.mp hk
    obtain ⟨o, ho, hko⟩ := List.mem_map.mp (List.mem_dedup.mp hk2)
    have hmem : o ∈ out.filter
        (fun o' => o'.cluster_id = k.1 ∧ o'.cluster_label = k.2) := by
      refine List.mem_filter.mpr ⟨ho, ?_⟩
      rw [← hko]
      simp
    simp only [profile_of]
    exact List.length_pos.mpr (List.ne_nil_of_mem hmem)

/-- Witness for C7's amended statement at a concrete assignment set. -/
theorem generate_cluster_profiles_present_groups_witness :
    ((generate_cluster_profiles id [orow1, orow2]).map
        (fun p => (p.cluster_id, p.cluster_label))).Perm
      (([orow1, orow2].map (fun o => (o.cluster_id, o.cluster_label))).dedup) :=
  (generate_cluster_profiles_present_groups id [orow1, orow2]).1

/-! ## C6: finiteness of the scaled matrix -/

/-- The median of a non-empty finite-value list is finite. -/
theorem medianQ_isSome {l : List ℚ} (h : l ≠ []) : (medianQ l).isSome := by
  have hlen : (l.insertionSort (· ≤ ·)).length = l.length :=
    List.length_insertionSort _ l
  have hne : (l.insertionSort (· ≤ ·)).length ≠ 0 := by
    rw [hlen]
    exact fun hc => h (List.length_eq_zero.mp hc)
  rw [medianQ]
  simp only [if_neg hne, Option.isSome_some]

/-- The NaN-handling loop preserves the column length. -/
theorem fix_column_length (col : List (Option ℚ)) :
    (fix_column col).length = col.length := by
  rw [fix_column]
  split <;> simp

/-- The scaler preserves the column length. -/
theorem standardize_column_length (sqrtQ : ℚ → ℚ) (col : List (Option ℚ)) :
    (standardize_column sqrtQ col).length = col.length := by
  simp [standardize_column]

/-- A column of the matrix has one entry per input row. -/
theorem matrix_col_length (lg : ℚ → ℚ) (df : List Row) (j : Nat) :
    (matrix_col (to_numpy lg df) j).length = df.length := by
  simp [matrix_col, to_numpy, with_derived_columns]

/-- Column `j` of the extracted matrix, row-wise. -/
theorem matrix_col_to_numpy (lg : ℚ → ℚ) (df : List Row) (j : Nat) :
    matrix_col (to_numpy lg df) j =
      df.map (fun r => (spec_feature_vector lg r).getD j none) := by
  simp only [matrix_col, to_numpy, with_derived_columns, List.map_map]
  rfl

/-- After the NaN-handling loop, a column with at least one finite
entry is entirely finite. -/
theorem fix_column_all_some {col : List (Option ℚ)}
    (hf : finite_vals col ≠ []) : ∀ v ∈ fix_column col, v.isSome := by
  intro v hv
  rw [fix_column] at hv
  split at hv
  · obtain ⟨w, -, rfl⟩ := List.mem_map.mp hv
    cases w with
    | some x => exact rfl
    | none => exact medianQ_isSome hf
  · rename_i hcond
    cases v with
    | some x => exact rfl
    | none =>
      exfalso
      exact hcond (List.any_eq_true.mpr ⟨none, hv, rfl⟩)

/-- The scaler transform maps finite entries to finite entries. -/
theorem standardize_column_all_some (sqrtQ : ℚ → ℚ) {col : List (Option ℚ)}
    (h : ∀ v ∈ col, v.isSome) :
    ∀ v ∈ standardize_column sqrtQ col, v.isSome := by
  intro v hv
  obtain ⟨w, hw, rfl⟩ := List.mem_map.mp hv
  cases w with
  | some x => exact rfl
  | none => exact absurd (h none hw) (by simp)

/-- A list of non-negative rationals with zero sum is identically 0. -/
theorem list_sum_zero_of_nonneg {l : List ℚ} (hnn : ∀ x ∈ l, 0 ≤ x)
    (h : l.sum = 0) : ∀ x ∈ l, x = 0 := by
  induction l with
  | nil => simp
  | cons a t ih =>
    have ha := hnn a (by simp)
    have ht : ∀ x ∈ t, 0 ≤ x := fun x hx => hnn x (by simp [hx])
    have hts : 0 ≤ t.sum := List.sum_nonneg ht
    simp only [List.sum_cons] at h
    intro x hx
    rcases List.mem_cons.mp hx with rfl | hx2
    · linarith
    · exact ih ht (by linarith) x hx2

/-- In a list with zero population variance every element equals the
mean. -/
theorem eq_mean_of_var_zero {l : List ℚ} (hv : var_fin l = 0) :
    ∀ a ∈ l, a = mean_fin l := by
  intro a ha
  have hlen : (0:ℚ) < l.length := by
    have : 0 < l.length := List.length_pos.mpr (List.ne_nil_of_mem ha)
    exact_mod_cast this
  have hsum : (l.map (fun x => (x - mean_fin l) ^ 2)).sum = 0 := by
    rw [var_fin, div_eq_zero_iff] at hv
    rcases hv with hv | hv
    · exact hv
    · exact absurd hv (by positivity)
  have hz := list_sum_zero_of_nonneg
    (fun x hx => by
      obtain ⟨y, -, rfl⟩ := List.mem_map.mp hx
      positivity) hsum
  have h2 := hz ((a - mean_fin l) ^ 2) (List.mem_map_of_mem _ ha)
  have h3 : a - mean_fin l = 0 := by
    have := (pow_eq_zero_iff (two_ne_zero)).mp h2
    exact this
  linarith

/-- A zero-variance column standardizes to 0 at every finite entry. -/
theorem standardize_column_zero_var (sqrtQ : ℚ → ℚ) {col : List (Option ℚ)}
    (hvar : var_fin (finite_vals col) = 0) :
    ∀ v ∈ standardize_column sqrtQ col, v.isSome → v = some 0 := by
  intro v hv hs
  obtain ⟨w, hw, rfl⟩ := List.mem_map.mp hv
  cases w with
  | none => exact absurd hs (by simp)
  | some a =>
    have ha : a ∈ finite_vals col := List.mem_filterMap.mpr ⟨some a, hw, rfl⟩
    have hmean := eq_mean_of_var_zero hvar a ha
    show some ((a - mean_fin (finite_vals col)) /
      (if var_fin (finite_vals col) = 0 then 1
        else sqrtQ (var_fin (finite_vals col)))) = some 0
    rw [if_pos hvar]
    simp [hmean]

/-- Each feature column has a finite entry, provided some row has
positive income (columns 0-4 are always finite; column 5 is the log
of income). -/
theorem col_finite_nonempty (lg : ℚ → ℚ) (df : List Row)
    (h : ∃ r ∈ df, 0 < r.renda_per_capita_2010) (j : Nat) (hj : j < 6) :
    finite_vals (matrix_col (to_numpy lg df) j) ≠ [] := by
  obtain ⟨r, hr, hrenda⟩ := h
  rw [matrix_col_to_numpy]
  have hlog : npLog lg r.renda_per_capita_2010 =
      some (lg r.renda_per_capita_2010) := if_pos hrenda
  interval_cases j
  · exact List.ne_nil_of_mem (List.mem_filterMap.mpr
      ⟨some r.idhm_2010, List.mem_map_of_mem _ hr, rfl⟩)
  · exact List.ne_nil_of_mem (List.mem_filterMap.mpr
      ⟨some r.idhm_educacao, List.mem_map_of_mem _ hr, rfl⟩)
  · exact List.ne_nil_of_mem (List.mem_filterMap.mpr
      ⟨some r.idhm_renda, List.mem_map_of_mem _ hr, rfl⟩)
  · exact List.ne_nil_of_mem (List.mem_filterMap.mpr
      ⟨some (1 - r.ivs_2010), List.mem_map_of_mem _ hr, rfl⟩)
  · exact List.ne_nil_of_mem (List.mem_filterMap.mpr
      ⟨some (1 - r.gini_2010), List.mem_map_of_mem _ hr, rfl⟩)
  · refine List.ne_nil_of_mem (a := lg r.renda_per_capita_2010)
      (List.mem_filterMap.mpr ⟨npLog lg r.renda_per_capita_2010, ?_, ?_⟩)
    · exact List.mem_map_of_mem _ hr
    · rw [hlog]
      rfl

/-- The length of a fully processed column. -/
theorem processed_col_length (lg sqrtQ : ℚ → ℚ) (df : List Row) (j : Nat) :
    (standardize_column sqrtQ
      (fix_column (matrix_col (to_numpy lg df) j))).length = df.length := by
  rw [standardize_column_length, fix_column_length, matrix_col_length]

/-- C6 amended: `prepare_features` never raises on an input with at
least one positive income (the only non-finite derived entries are
log-income ones); the scaled matrix is then entirely finite, a
zero-variance dimension yields the value 0 at every entry rather than
NaN or Inf, and every non-finite derived entry is replaced by the
(finite) median of its column's finite values.  Without the
positive-income hypothesis the finiteness claim fails — see the
counterexample. -/
theorem prepare_features_finite_and_fallbacks (lg sqrtQ : ℚ → ℚ)
    (df : List Row) (h : ∃ r ∈ df, 0 < r.renda_per_capita_2010) :
    prepare_features lg sqrtQ df =
      .ok (scaled_matrix lg sqrtQ df, with_derived_columns lg df) ∧
    (∀ row ∈ scaled_matrix lg sqrtQ df, ∀ v ∈ row, v.isSome) ∧
    (∀ j, j < 6 →
      var_fin (finite_vals (fix_column (matrix_col (to_numpy lg df) j))) = 0 →
      ∀ row ∈ scaled_matrix lg sqrtQ df, row.getD j none = some 0) ∧
    (∀ j, j < 6 → ∀ i, i < df.length →
      (matrix_col (to_numpy lg df) j).getD i none = none →
      (fix_column (matrix_col (to_numpy lg df) j)).getD i none =
        medianQ (finite_vals (matrix_col (to_numpy lg df) j)) ∧
      (medianQ (finite_vals (matrix_col (to_numpy lg df) j))).isSome) := by
  have hne : df ≠ [] := by
    obtain ⟨r0, hr0, -⟩ := h
    exact List.ne_nil_of_mem hr0
  refine ⟨by simp [prepare_features, hne], ?_, ?_, ?_⟩
  · intro row hrow v hv
    simp only [scaled_matrix, List.mem_map] at hrow
    obtain ⟨i, hi, rfl⟩ := hrow
    have hilt : i < df.length := List.mem_range.mp hi
    obtain ⟨c, hc, rfl⟩ := List.mem_map.mp hv
    obtain ⟨j, hjr, rfl⟩ := List.mem_map.mp hc
    have hj : j < 6 := List.mem_range.mp hjr
    have hclen := processed_col_length lg sqrtQ df j
    have hic : i < (standardize_column sqrtQ
        (fix_column (matrix_col (to_numpy lg df) j))).length := by omega
    rw [List.getD_eq_getElem _ _ hic]
    exact standardize_column_all_some sqrtQ
      (fix_column_all_some (col_finite_nonempty lg df h j hj)) _
      (List.getElem_mem hic)
  · intro j hj hvar row hrow
    simp only [scaled_matrix, List.mem_map] at hrow
    obtain ⟨i, hi, rfl⟩ := hrow
    have hilt : i < df.length := List.mem_range.mp hi
    have hrowlen : ((List.range 6).map (fun j => standardize_column sqrtQ
        (fix_column (matrix_col (to_numpy lg df) j)))).length = 6 := by simp
    have hjlen : j < (((List.range 6).map (fun j => standardize_column sqrtQ
        (fix_column (matrix_col (to_numpy lg df) j)))).map
          (fun c => c.getD i none)).length := by simp [hj]
    rw [List.getD_eq_getElem _ _ hjlen, List.getElem_map, List.getElem_map,
      List.getElem_range]
    have hclen := processed_col_length lg sqrtQ df j
    have hic : i < (standardize_column sqrtQ
        (fix_column (matrix_col (to_numpy lg df) j))).length := by omega
    rw [List.getD_eq_getElem _ _ hic]
    have hsome := standardize_column_all_some sqrtQ
      (fix_column_all_some (col_finite_nonempty lg df h j hj)) _
      (List.getElem_mem hic)
    have hvar2 : var_fin (finite_vals
        (fix_column (matrix_col (to_numpy lg df) j))) = 0 := hvar
    exact standardize_column_zero_var sqrtQ hvar2 _
      (List.getElem_mem hic) hsome
  · intro j hj i hi hnone
    have hcollen := matrix_col_length lg df j
    have hic : i < (matrix_col (to_numpy lg df) j).length := by omega
    rw [List.getD_eq_getElem _ _ hic] at hnone
    have hany : (matrix_col (to_numpy lg df) j).any (fun v => v.isNone) = true :=
      List.any_eq_true.mpr ⟨_, List.getElem_mem hic, by rw [hnone]; rfl⟩
    refine ⟨?_, medianQ_isSome (col_finite_nonempty lg df h j hj)⟩
    rw [fix_column, if_pos hany]
    have hml : i < ((matrix_col (to_numpy lg df) j).map
        (fun v => match v with
          | some x => some x
          | none => medianQ (finite_vals (matrix_col (to_numpy lg df) j)))).length := by
      simp [hic]
    rw [List.getD_eq_getElem _ _ hml, List.getElem_map, hnone]

/-- C6 counterexample: when every row has income 0, every entry of the
log-income column is non-finite, `np.nanmedian` of the empty finite
selection is NaN, and the scaled matrix keeps a non-finite entry (the
stage still returns without raising). -/
theorem prepare_features_nonfinite_counterexample :
    (∀ r ∈ df_zero, r.renda_per_capita_2010 = 0) ∧
    (prepare_features id id df_zero).isOk = true ∧
    ((scaled_matrix id id df_zero).getD 0 []).getD 5 none = none := by
  refine ⟨by with_unfolding_all decide, rfl, ?_⟩
  with_unfolding_all decide

/-- Witness for C6's amended statement: on `df_fin` the log-income
column has a zero entry, after median replacement it has zero variance,
and the scaled entry is exactly 0. -/
theorem prepare_features_finite_and_fallbacks_witness :
    ((scaled_matrix id id df_fin).getD 0 []).getD 5 none = some 0 := by
  have h := prepare_features_finite_and_fallbacks id id df_fin
    (by with_unfolding_all decide)
  exact h.2.2.1 5 (by omega) (by with_unfolding_all decide)
    ((scaled_matrix id id df_fin).getD 0 []) (by with_unfolding_all decide)

/-! ## C9: export round-trip -/

/-- Splitting never yields an empty chunk list. -/
theorem split_on_ne_nil (sep : Char) (l : List Char) : split_on sep l ≠ [] := by
  induction l with
  | nil => simp [split_on]
  | cons c cs ih =>
    cases heq : split_on sep cs with
    | nil => exact absurd heq ih
    | cons hh tt =>
      simp only [split_on, heq]
      split <;> simp

/-- Splitting after a separator-free leading chunk. -/
theorem split_on_sep_cons (sep : Char) (p rest : List Char) (hp : sep ∉ p) :
    split_on sep (p ++ sep :: rest) = p :: split_on sep rest := by
  induction p with
  | nil =>
    cases heq : split_on sep rest with
    | nil => exact absurd heq (split_on_ne_nil sep rest)
    | cons hh tt =>
      simp [split_on, heq]
  | cons c p' ih =>
    have hc : c ≠ sep := by
      intro hc
      exact hp (by simp [hc])
    have ih' := ih (fun hmem => hp (by simp [hmem]))
    simp only [List.cons_append, split_on, List.append_eq, ih']
    rw [if_neg hc]

/-- Splitting a separator-free list yields one chunk. -/
theorem split_on_no_sep (sep : Char) (l : List Char) (hl : sep ∉ l) :
    split_on sep l = [l] := by
  induction l with
  | nil => rfl
  | cons c cs ih =>
    have hc : c ≠ sep := fun h => hl (by simp [h])
    have ih' := ih (fun h => hl (by simp [h]))
    simp only [split_on, ih']
    rw [if_neg hc]

/-- Splitting a file of separator-terminated lines recovers the lines
(plus the empty chunk after the final terminator). -/
theorem split_on_lines (sep : Char) (parts : List (List Char))
    (hp : ∀ p ∈ parts, sep ∉ p) :
    split_on sep ((parts.map (fun p => p ++ [sep])).flatten) = parts ++ [[]] := by
  induction parts with
  | nil => rfl
  | cons p ps ih =>
    have hp1 := hp p (by simp)
    have ih' := ih (fun q hq => hp q (by simp [hq]))
    simp only [List.map_cons, List.flatten_cons]
    have he : p ++ [sep] ++ (ps.map (fun q => q ++ [sep])).flatten =
        p ++ sep :: (ps.map (fun q => q ++ [sep])).flatten := by
      simp
    rw [he, split_on_sep_cons sep p _ hp1, ih']
    rfl

/-- The digit characters are digits. -/
theorem digit_char_isDigit (d : Nat) : (digit_char d).isDigit = true := by
  rcases d with _|_|_|_|_|_|_|_|_|d <;> rfl

/-- Value of a digit character below 10. -/
theorem digit_val_digit_char (d : Nat) (h : d < 10) :
    digit_val (digit_char d) = d := by
  interval_cases d <;> rfl

/-- Folding one more digit. -/
theorem chars_to_nat_append_digit (l : List Char) (c : Char) :
    chars_to_nat (l ++ [c]) = 10 * chars_to_nat l + digit_val c := by
  simp [chars_to_nat, List.foldl_append]

/-- Decimal round-trip on naturals. -/
theorem chars_to_nat_render_nat (n : Nat) :
    chars_to_nat (render_nat n) = n := by
  induction n using Nat.strong_induction_on with
  | _ n ih =>
    rw [render_nat]
    split
    · rename_i h
      have h1 : chars_to_nat [digit_char n] = digit_val (digit_char n) := by
        simp [chars_to_nat]
      rw [h1, digit_val_digit_char n h]
    · rename_i h
      rw [chars_to_nat_append_digit,
        ih (n / 10) (Nat.div_lt_self (by omega) (by omega)),
        digit_val_digit_char (n % 10) (Nat.mod_lt _ (by omega))]
      omega

/-- A rendered natural is non-empty. -/
theorem render_nat_ne_nil (n : Nat) : render_nat n ≠ [] := by
  rw [render_nat]
  split <;> simp

/-- A rendered natural consists of digit characters only. -/
theorem render_nat_digits (n : Nat) :
    ∀ c ∈ render_nat n, c.isDigit = true := by
  induction n using Nat.strong_induction_on with
  | _ n ih =>
    rw [render_nat]
    split
    · intro c hc
      rw [List.mem_singleton.mp hc]
      exact digit_char_isDigit n
    · rename_i h
      intro c hc
      rcases List.mem_append.mp hc with hc2 | hc2
      · exact ih (n / 10) (Nat.div_lt_self (by omega) (by omega)) c hc2
      · rw [List.mem_singleton.mp hc2]
        exact digit_char_isDigit (n % 10)

/-- A digit character is none of the CSV metacharacters. -/
theorem isDigit_safe {c : Char} (h : c.isDigit = true) :
    c ≠ ',' ∧ c ≠ '"' ∧ c ≠ '\n' := by
  refine ⟨?_, ?_, ?_⟩ <;> intro hc <;> subst hc <;> exact absurd h (by decide)

/-- Fields without metacharacters are rendered verbatim (the
necessary-only quoting of the writer never fires). -/
theorem render_field_eq {cs : List Char}
    (h : ∀ c ∈ cs, c ≠ ',' ∧ c ≠ '"' ∧ c ≠ '\n') : render_field cs = cs := by
  rw [render_field, if_neg]
  intro hc
  obtain ⟨c, hcm, hcp⟩ := List.any_eq_true.mp hc
  obtain ⟨h1, h2, h3⟩ := h c hcm
  simp only [decide_eq_true_eq] at hcp
  rcases hcp with hcp | hcp | hcp
  · exact h1 hcp
  · exact h2 hcp
  · exact h3 hcp

/-- The `cluster_id` cell round-trips, null included. -/
theorem parse_cell_render_cell (cid : Option Nat) :
    parse_cell (render_cell cid) = cid := by
  cases cid with
  | none => rfl
  | some n =>
    rw [render_cell, parse_cell, if_neg (render_nat_ne_nil n),
      chars_to_nat_render_nat]

/-- The `cluster_id` cell contains no metacharacter. -/
theorem render_cell_safe (cid : Option Nat) :
    ∀ c ∈ render_cell cid, c ≠ ',' ∧ c ≠ '"' ∧ c ≠ '\n' := by
  cases cid with
  | none => simp [render_cell]
  | some n => exact fun c hc => isDigit_safe (render_nat_digits n c hc)

/-- Splitting a rendered data line recovers the three fields. -/
theorem split_on_render_row (r : List Char × Option Nat × List Char)
    (h1 : ∀ c ∈ r.1, c ≠ ',' ∧ c ≠ '"' ∧ c ≠ '\n')
    (h3 : ∀ c ∈ r.2.2, c ≠ ',' ∧ c ≠ '"' ∧ c ≠ '\n') :
    split_on ',' (render_row r) = [r.1, render_cell r.2.1, r.2.2] := by
  rw [render_row, render_field_eq h1, render_field_eq h3]
  have e1 : r.1 ++ [','] ++ render_cell r.2.1 ++ [','] ++ r.2.2 =
      r.1 ++ ',' :: (render_cell r.2.1 ++ ',' :: r.2.2) := by
    simp
  rw [e1, split_on_sep_cons ',' _ _ (fun hm => (h1 ',' hm).1 rfl),
    split_on_sep_cons ',' _ _ (fun hm => (render_cell_safe r.2.1 ',' hm).1 rfl),
    split_on_no_sep ',' _ (fun hm => (h3 ',' hm).1 rfl)]

/-- Parsing a rendered data line recovers the row. -/
theorem parse_line_render_row (r : List Char × Option Nat × List Char)
    (h1 : ∀ c ∈ r.1, c ≠ ',' ∧ c ≠ '"' ∧ c ≠ '\n')
    (h3 : ∀ c ∈ r.2.2, c ≠ ',' ∧ c ≠ '"' ∧ c ≠ '\n') :
    parse_line (render_row r) = some r := by
  simp only [parse_line, split_on_render_row r h1 h3,
    parse_cell_render_cell]

/-- Parsing all rendered data lines recovers all rows. -/
theorem mapM_parse_render (rs : List (List Char × Option Nat × List Char))
    (hrs : ∀ r ∈ rs, (∀ c ∈ r.1, c ≠ ',' ∧ c ≠ '"' ∧ c ≠ '\n') ∧
      (∀ c ∈ r.2.2, c ≠ ',' ∧ c ≠ '"' ∧ c ≠ '\n')) :
    (rs.map render_row).mapM parse_line = some rs := by
  induction rs with
  | nil => rfl
  | cons r rest ih =>
    have h1 := hrs r (by simp)
    have ih' := ih (fun q hq => hrs q (by simp [hq]))
    simp only [List.map_cons, List.mapM_cons,
      parse_line_render_row r h1.1 h1.2, ih']
    rfl

/-- The file is the header line then the data lines, all
newline-terminated. -/
theorem write_csv_eq (rows : List (List Char × Option Nat × List Char)) :
    write_csv rows =
      ((csv_header :: rows.map render_row).map (fun l => l ++ ['\n'])).flatten := by
  simp [write_csv, List.map_map, Function.comp_def]

/-- C9: for every final assignment set (digit ibge codes, labels from
the fixed table or the fallback), the exported file is a header line
plus one line per municipality in the fixed column order, and parsing
it back recovers exactly the in-memory
(ibge_code, ordered_group_id, label) rows. -/
theorem export_round_trip (out : List ORow)
    (h : ∀ o ∈ out, (∀ c ∈ o.id_municipio_ibge.data, c.isDigit = true) ∧
      o.cluster_label ∈ label_strings) :
    parse_csv (write_csv (seed_select out)) = some (seed_select out) := by
  have hlabel : ∀ s ∈ label_strings, ∀ c ∈ s.data,
      c ≠ ',' ∧ c ≠ '"' ∧ c ≠ '\n' := by decide
  have hsafe : ∀ r ∈ seed_select out,
      (∀ c ∈ r.1, c ≠ ',' ∧ c ≠ '"' ∧ c ≠ '\n') ∧
      (∀ c ∈ r.2.2, c ≠ ',' ∧ c ≠ '"' ∧ c ≠ '\n') := by
    intro r hr
    obtain ⟨o, ho, rfl⟩ := List.mem_map.mp hr
    obtain ⟨hd, hl⟩ := h o ho
    exact ⟨fun c hc => isDigit_safe (hd c hc), hlabel _ hl⟩
  have hlines : ∀ l ∈ csv_header :: (seed_select out).map render_row,
      '\n' ∉ l := by
    intro l hl
    rcases List.mem_cons.mp hl with rfl | hl2
    · decide
    · obtain ⟨r, hr, rfl⟩ := List.mem_map.mp hl2
      obtain ⟨hs1, hs3⟩ := hsafe r hr
      intro hmem
      rw [render_row, render_field_eq hs1, render_field_eq hs3] at hmem
      simp only [List.mem_append, List.mem_singleton] at hmem
      rcases hmem with (((hm | hm) | hm) | hm) | hm
      · exact (hs1 _ hm).2.2 rfl
      · exact absurd hm (by decide)
      · exact (render_cell_safe r.2.1 _ hm).2.2 rfl
      · exact absurd hm (by decide)
      · exact (hs3 _ hm).2.2 rfl
  have hsplit := split_on_lines '\n'
    (csv_header :: (seed_select out).map render_row) hlines
  rw [write_csv_eq, parse_csv, hsplit]
  simp only [List.getLast?_concat, List.dropLast_concat,
    eq_self_iff_true, if_true]
  exact mapM_parse_render (seed_select out) hsafe

/-- Witness for C9 at a concrete two-row assignment set. -/
theorem export_round_trip_witness :
    parse_csv (write_csv (seed_select [orow1, orow2])) =
      some (seed_select [orow1, orow2]) := by
  apply export_round_trip
  decide

end Clustering
